import Mathlib

/- Shallow embedding of the todo-app persistence module: TaskService,
   TaskHistoryService and CategoryService, three synchronous
   read-modify-write stores over the browser key-value storage, plus the
   shared counter/id helper they all copy.

   Modelling conventions:
   - timestamps are natural numbers (epoch milliseconds); the source keeps
     ISO-8601 strings for tasks and Date objects for history entries, and
     both conversions are injective and order preserving, so the claims
     about timestamps are unaffected;
   - the persisted id counters are kept as the stored strings, because the
     source re-parses them with JavaScript parseInt(s, 10) on every read
     and the NaN behaviour matters;
   - optional DTO fields are Option values, none meaning the field is
     absent from the object, so the object spreads in the source become
     getD / Option.or merges;
   - exceptions are an Except value paired with the state reached when the
     exception escapes: storage writes performed before the throw stay
     persisted, as they do with localStorage;
   - the one storage write that is allowed to fail in this development is
     the write of the history collection inside addHistoryEntry (the
     histFail flag, modelling an exceeded quota); the source has no catch
     anywhere on that path. -/

namespace TodoApp

/-- JavaScript number as far as the id counters can observe it: an integer
or NaN (what parseInt returns on a non-numeric string). -/
inductive JsNum where
  | nan : JsNum
  | int : Int → JsNum
deriving DecidableEq, Repr

/-- Rendering of a counter value by template interpolation or toString:
NaN prints as the string NaN. -/
def jsNumToString : JsNum → String
  | .nan => "NaN"
  | .int n => toString n

/-- Counter increment: NaN + 1 is NaN. -/
def jsAdd1 : JsNum → JsNum
  | .nan => .nan
  | .int n => .int (n + 1)

/-- Whitespace skipped by parseInt (ASCII approximation). -/
def isJsSpace (c : Char) : Bool := c == ' ' || c == '\t' || c == '\n' || c == '\r'

/-- Value of a run of decimal digits. -/
def digitsToNat (ds : List Char) : Nat :=
  ds.foldl (fun a c => a * 10 + (c.toNat - '0'.toNat)) 0

/-- Longest leading run of decimal digits, as parseInt with radix 10 reads
it; an empty run gives NaN. -/
def parseDigits (cs : List Char) : JsNum :=
  let ds := cs.takeWhile Char.isDigit
  if ds.isEmpty then .nan else .int (digitsToNat ds)

/-- Model of JavaScript parseInt(s, 10): skip leading whitespace, read an
optional sign and then the longest run of decimal digits; when there is no
digit the result is NaN. -/
def parseIntJs (s : String) : JsNum :=
  match s.data.dropWhile isJsSpace with
  | '-' :: rest =>
    match parseDigits rest with
    | .nan => .nan
    | .int n => .int (-n)
  | '+' :: rest => parseDigits rest
  | cs => parseDigits cs

/-- getCounter, identical in the three services: a missing or empty stored
value is falsy and defaults to 1; anything else goes through parseInt. -/
def getCounter (stored : Option String) : JsNum :=
  match stored with
  | none => .int 1
  | some s => if s == "" then .int 1 else parseIntJs s

/-- generateId, identical in the three services up to the kind: read the
counter, persist counter + 1, return the id built from the value read.
Returns the id together with the new stored counter string. -/
def generateId (kind : String) (stored : Option String) : String × Option String :=
  let c := getCounter stored
  (kind ++ "-" ++ jsNumToString c, some (jsNumToString (jsAdd1 c)))

/-- TaskStatus of task.model.ts. -/
inductive TaskStatus where
  | pending
  | inProgress
  | completed
  | cancelled
deriving DecidableEq, Repr

/-- TaskPriority of task.model.ts. -/
inductive TaskPriority where
  | low
  | medium
  | high
  | urgent
deriving DecidableEq, Repr

/-- Task record of task.model.ts. -/
structure Task where
  id : String
  title : String
  description : Option String
  status : TaskStatus
  priority : TaskPriority
  categoryId : String
  createdAt : Nat
  updatedAt : Nat
  completedAt : Option Nat
  dueDate : Option Nat
  tags : Option (List String)
deriving DecidableEq, Repr

/-- HistoryAction of task-history.model.ts. -/
inductive HistoryAction where
  | created
  | updated
  | statusChanged
  | completed
  | deleted
  | started
deriving DecidableEq, Repr

/-- TaskHistory record, restricted to the fields the services ever write:
addHistoryEntry fills id, taskId, action, timestamp, oldValues and
newValues, and old and new values are always task snapshots or absent. -/
structure TaskHistory where
  id : String
  taskId : String
  action : HistoryAction
  timestamp : Nat
  oldValues : Option Task
  newValues : Option Task
deriving DecidableEq, Repr

/-- Category record of category.model.ts; taskCount is always written by
the store (0 at creation, recomputed by getCategories). -/
structure Category where
  id : String
  name : String
  color : String
  icon : Option String
  description : Option String
  createdAt : Nat
  taskCount : Nat
deriving DecidableEq, Repr

/-- CreateTaskDto; the status field is read by createTask with a falsy
fallback to pending, so it is carried here as an Option. -/
structure CreateTaskDto where
  title : String
  description : Option String
  status : Option TaskStatus
  priority : TaskPriority
  categoryId : String
  dueDate : Option Nat
  tags : Option (List String)
deriving DecidableEq, Repr

/-- UpdateTaskDto: every field optional, absent fields untouched. -/
structure UpdateTaskDto where
  title : Option String
  description : Option String
  status : Option TaskStatus
  priority : Option TaskPriority
  categoryId : Option String
  dueDate : Option Nat
  tags : Option (List String)
deriving DecidableEq, Repr

/-- CreateCategoryDto of category.model.ts. -/
structure CreateCategoryDto where
  name : String
  color : String
  icon : Option String
  description : Option String
deriving DecidableEq, Repr

/-- TaskHistoryFilter of task-history.model.ts. -/
structure TaskHistoryFilter where
  taskId : Option String
  action : Option HistoryAction
  dateFrom : Option Nat
  dateTo : Option Nat
deriving DecidableEq, Repr

/-- The localStorage keys the module touches, one field per key:
todoapp_tasks, todoapp_tasks_counter, todoapp_history,
todoapp_history_counter, todoapp_categories and
todoapp_categories_counter. Collections are kept deserialized; the
counters are kept as their stored strings. -/
structure St where
  tasks : List Task
  tasksCounter : Option String
  history : List TaskHistory
  historyCounter : Option String
  categories : List Category
  categoriesCounter : Option String
deriving DecidableEq, Repr

/-- The entry addHistoryEntry builds, before unshifting it: a fresh id
from the history counter, the current timestamp, and the two snapshots as
passed in. -/
def mkHistoryEntry (σ : St) (taskId : String) (action : HistoryAction)
    (oldValues newValues : Option Task) (now : Nat) : TaskHistory :=
  { id := (generateId "history" σ.historyCounter).1
    taskId := taskId
    action := action
    timestamp := now
    oldValues := oldValues
    newValues := newValues }

/-- TaskHistoryService.addHistoryEntry: allocate an id (this persists the
bumped counter), unshift the entry, truncate to the 1000 most recent,
persist. histFail models the storage write of the history collection
throwing (for example on exceeded quota); the source has no catch on this
path, so the exception escapes after the counter write already happened. -/
def addHistoryEntry (histFail : Bool) (σ : St) (taskId : String)
    (action : HistoryAction) (oldValues newValues : Option Task) (now : Nat) :
    Except String Unit × St :=
  let entry := mkHistoryEntry σ taskId action oldValues newValues now
  let σ₁ := { σ with historyCounter := (generateId "history" σ.historyCounter).2 }
  if histFail then
    (.error "QuotaExceededError", σ₁)
  else
    (.ok (), { σ₁ with history := (entry :: σ₁.history).take 1000 })

/-- TaskHistoryService.getHistory: the stored list (already newest first),
optionally narrowed by exact taskId, exact action and the inclusive
timestamp range; provided filters are applied one after the other. -/
def getHistory (σ : St) (flt : Option TaskHistoryFilter) : List TaskHistory :=
  match flt with
  | none => σ.history
  | some f =>
    let h1 := match f.taskId with
      | some tid => σ.history.filter (fun e => e.taskId == tid)
      | none => σ.history
    let h2 := match f.action with
      | some a => h1.filter (fun e => e.action == a)
      | none => h1
    let h3 := match f.dateFrom with
      | some d => h2.filter (fun e => d ≤ e.timestamp)
      | none => h2
    match f.dateTo with
    | some d => h3.filter (fun e => e.timestamp ≤ d)
    | none => h3

/-- First element satisfying p replaced by f of it, as the source's
findIndex-then-assign does on the loaded collection; returns the old
element, the new element and the updated list, or none when no element
matches (findIndex returned -1). -/
def updateFirst {α : Type} (p : α → Bool) (f : α → α) : List α → Option (α × α × List α)
  | [] => none
  | x :: xs =>
    if p x then some (x, f x, f x :: xs)
    else (updateFirst p f xs).map (fun r => (r.1, r.2.1, x :: r.2.2))

/-- First element satisfying p removed, as the source's
findIndex-then-splice does; returns the removed element and the rest, or
none when no element matches. -/
def removeFirst {α : Type} (p : α → Bool) : List α → Option (α × List α)
  | [] => none
  | x :: xs =>
    if p x then some (x, xs)
    else (removeFirst p xs).map (fun r => (r.1, x :: r.2))

/-- The task createTask builds: generated id, the dto fields, status with
the falsy fallback to pending, createdAt = updatedAt = now, no
completedAt. -/
def mkNewTask (σ : St) (dto : CreateTaskDto) (now : Nat) : Task :=
  { id := (generateId "task" σ.tasksCounter).1
    title := dto.title
    description := dto.description
    status := dto.status.getD .pending
    priority := dto.priority
    categoryId := dto.categoryId
    createdAt := now
    updatedAt := now
    completedAt := none
    dueDate := dto.dueDate
    tags := dto.tags }

/-- TaskService.createTask: allocate the id, push the new task, persist,
then record a created history entry with only the new snapshot. The
history append runs after the task write; when it throws, the error
escapes to the caller with the task already persisted. -/
def createTask (histFail : Bool) (σ : St) (dto : CreateTaskDto) (now : Nat) :
    Except String Task × St :=
  let t := mkNewTask σ dto now
  let σ₁ := { σ with
    tasksCounter := (generateId "task" σ.tasksCounter).2
    tasks := σ.tasks ++ [t] }
  let r := addHistoryEntry histFail σ₁ t.id .created none (some t) now
  match r.1 with
  | .ok _ => (.ok t, r.2)
  | .error e => (.error e, r.2)

/-- The object spread in updateTask: supplied dto fields overwrite, absent
ones keep the stored value; id and createdAt are kept (the dto cannot name
them) and updatedAt is set to now. -/
def applyUpdate (dto : UpdateTaskDto) (now : Nat) (t : Task) : Task :=
  { id := t.id
    title := dto.title.getD t.title
    description := dto.description.or t.description
    status := dto.status.getD t.status
    priority := dto.priority.getD t.priority
    categoryId := dto.categoryId.getD t.categoryId
    createdAt := t.createdAt
    updatedAt := now
    completedAt := t.completedAt
    dueDate := dto.dueDate.or t.dueDate
    tags := dto.tags.or t.tags }

/-- The action classification in updateTask: start from updated, and only
inside the status-changed branch refine to completed or started. -/
def classifyAction (oldT newT : Task) : HistoryAction :=
  if oldT.status ≠ newT.status then
    if newT.status = .completed then .completed
    else if newT.status = .inProgress then .started
    else .updated
  else .updated

/-- TaskService.updateTask: NotFound when the id is absent; otherwise
merge the dto onto the stored record, persist, then append the classified
history entry carrying both snapshots. -/
def updateTask (histFail : Bool) (σ : St) (id : String) (dto : UpdateTaskDto)
    (now : Nat) : Except String Task × St :=
  match updateFirst (fun t => t.id == id) (applyUpdate dto now) σ.tasks with
  | none => (.error ("Tarea " ++ id ++ " no encontrada"), σ)
  | some (oldTask, updatedTask, tasks') =>
    let σ₁ := { σ with tasks := tasks' }
    let r := addHistoryEntry histFail σ₁ id (classifyAction oldTask updatedTask)
      (some oldTask) (some updatedTask) now
    match r.1 with
    | .ok _ => (.ok updatedTask, r.2)
    | .error e => (.error e, r.2)

/-- TaskService.deleteTask: NotFound when the id is absent; otherwise
splice the task out, persist, then append a deleted entry with only the
old snapshot. -/
def deleteTask (histFail : Bool) (σ : St) (id : String) (now : Nat) :
    Except String Unit × St :=
  match removeFirst (fun t => t.id == id) σ.tasks with
  | none => (.error ("Tarea " ++ id ++ " no encontrada"), σ)
  | some (deletedTask, tasks') =>
    let σ₁ := { σ with tasks := tasks' }
    let r := addHistoryEntry histFail σ₁ id .deleted (some deletedTask) none now
    match r.1 with
    | .ok _ => (.ok (), r.2)
    | .error e => (.error e, r.2)

/-- The assignment completeTask makes on the stored record: status forced
to completed, completedAt and updatedAt set to now, unconditionally. -/
def applyComplete (now : Nat) (t : Task) : Task :=
  { t with status := .completed, completedAt := some now, updatedAt := now }

/-- TaskService.completeTask: NotFound when the id is absent; otherwise
force the record complete, persist, then append a completed entry with
both snapshots (always completed, never the generic classification). -/
def completeTask (histFail : Bool) (σ : St) (id : String) (now : Nat) :
    Except String Task × St :=
  match updateFirst (fun t => t.id == id) (applyComplete now) σ.tasks with
  | none => (.error ("Tarea " ++ id ++ " no encontrada"), σ)
  | some (oldTask, doneTask, tasks') =>
    let σ₁ := { σ with tasks := tasks' }
    let r := addHistoryEntry histFail σ₁ id .completed (some oldTask) (some doneTask) now
    match r.1 with
    | .ok _ => (.ok doneTask, r.2)
    | .error e => (.error e, r.2)

/-- TaskService.getTasksByCategory: pure filter over the collection. -/
def getTasksByCategory (σ : St) (categoryId : String) : List Task :=
  σ.tasks.filter (fun t => t.categoryId == categoryId)

/-- Case folding used by the category name comparisons (toLowerCase on
both sides). -/
def jsToLower (s : String) : String := String.mk (s.data.map Char.toLower)

/-- The three seed categories of CategoryService, all stamped with the
construction time. -/
def defaultCategories (now : Nat) : List Category :=
  [ { id := "cat-1", name := "Personal", color := "#4caf50", icon := some "👤",
      description := none, createdAt := now, taskCount := 0 },
    { id := "cat-2", name := "Trabajo", color := "#2196f3", icon := some "💼",
      description := none, createdAt := now, taskCount := 0 },
    { id := "cat-3", name := "Urgente", color := "#f44336", icon := some "⚡",
      description := none, createdAt := now, taskCount := 0 } ]

/-- The bootstrap the CategoryService constructor runs before any call is
served (source name: the private category-seeding method): when the stored
collection is empty, persist the three defaults and set the counter to 4;
otherwise do nothing. -/
def initDefaultCategories (σ : St) (now : Nat) : St :=
  if σ.categories.isEmpty then
    { σ with categories := defaultCategories now, categoriesCounter := some "4" }
  else σ

/-- The category createCategory builds: generated id, the dto fields,
taskCount 0, createdAt now. -/
def mkNewCategory (σ : St) (dto : CreateCategoryDto) (now : Nat) : Category :=
  { id := (generateId "cat" σ.categoriesCounter).1
    name := dto.name
    color := dto.color
    icon := dto.icon
    description := dto.description
    createdAt := now
    taskCount := 0 }

/-- CategoryService.createCategory: the Conflict error when some existing
name matches case-insensitively, checked before the id is allocated;
otherwise allocate, push, persist, return the record. -/
def createCategory (σ : St) (dto : CreateCategoryDto) (now : Nat) :
    Except String Category × St :=
  if σ.categories.any (fun c => jsToLower c.name == jsToLower dto.name) then
    (.error ("Ya existe una categoría con el nombre \"" ++ dto.name ++ "\""), σ)
  else
    (.ok (mkNewCategory σ dto now),
     { σ with
        categories := σ.categories ++ [mkNewCategory σ dto now]
        categoriesCounter := (generateId "cat" σ.categoriesCounter).2 })

/-- CategoryService.deleteCategory: NotFound when the id is absent; the
Conflict error, with nothing removed, while any task still references the
id (read straight from the task collection); otherwise splice the category
out and persist. -/
def deleteCategory (σ : St) (id : String) : Except String Unit × St :=
  match removeFirst (fun c => c.id == id) σ.categories with
  | none => (.error ("Categoría " ++ id ++ " no encontrada"), σ)
  | some (_, cats') =>
    if σ.tasks.any (fun t => t.categoryId == id) then
      (.error "No se puede eliminar una categoría que tiene tareas asociadas", σ)
    else
      (.ok (), { σ with categories := cats' })

/-- One call to addHistoryEntry, for reasoning about sequences of
appends. -/
structure AppendCall where
  taskId : String
  action : HistoryAction
  oldValues : Option Task
  newValues : Option Task
  now : Nat
deriving DecidableEq, Repr

/-- A sequence of successful appends, run left to right. -/
def runAppends (σ : St) (calls : List AppendCall) : St :=
  calls.foldl
    (fun s c => (addHistoryEntry false s c.taskId c.action c.oldValues c.newValues c.now).2) σ

/-- The entries a sequence of appends builds, in append order, with the
ids the evolving counter hands out. -/
def appendedEntries (σ : St) : List AppendCall → List TaskHistory
  | [] => []
  | c :: cs =>
    mkHistoryEntry σ c.taskId c.action c.oldValues c.newValues c.now ::
      appendedEntries (addHistoryEntry false σ c.taskId c.action c.oldValues c.newValues c.now).2 cs

/-- Modelled from the claim's wording on updateTask's action, for
comparison with classifyAction of the source: a flat chain in which the
started branch is not guarded by the status having changed. -/
def claimClassify (oldT newT : Task) : HistoryAction :=
  if oldT.status ≠ newT.status ∧ newT.status = .completed then .completed
  else if newT.status = .inProgress then .started
  else .updated

/-- Success test on an Except result. -/
def isOkE {ε α : Type} : Except ε α → Bool
  | .ok _ => true
  | .error _ => false

instance {ε α : Type} [DecidableEq ε] [DecidableEq α] : DecidableEq (Except ε α) := fun x y =>
  match x, y with
  | .ok a, .ok b => if h : a = b then .isTrue (by rw [h]) else .isFalse (by simp [h])
  | .error a, .error b => if h : a = b then .isTrue (by rw [h]) else .isFalse (by simp [h])
  | .ok _, .error _ => .isFalse (by simp)
  | .error _, .ok _ => .isFalse (by simp)

/-- A concrete pending task, for witnesses and counterexamples. -/
def sampleTask : Task :=
  { id := "task-1", title := "Ship release", description := none,
    status := .pending, priority := .high, categoryId := "cat-1",
    createdAt := 0, updatedAt := 0, completedAt := none, dueDate := none,
    tags := none }

/-- A store holding just the sample task. -/
def sampleSt : St :=
  { tasks := [sampleTask], tasksCounter := some "2", history := [],
    historyCounter := none, categories := [], categoriesCounter := none }

/-- The sample task already started. -/
def inProgressTask : Task := { sampleTask with status := .inProgress }

/-- A store holding the started sample task. -/
def inProgressSt : St := { sampleSt with tasks := [inProgressTask] }

/-- The sample task already completed at time 3. -/
def completedTask : Task :=
  { sampleTask with status := .completed, completedAt := some 3, updatedAt := 3 }

/-- A store holding the completed sample task. -/
def completedSt : St := { sampleSt with tasks := [completedTask] }

/-- An update dto that only renames. -/
def titleOnlyDto : UpdateTaskDto :=
  { title := some "Renamed", description := none, status := none,
    priority := none, categoryId := none, dueDate := none, tags := none }

/-- An update dto that only moves the status to completed. -/
def completeStatusDto : UpdateTaskDto :=
  { title := none, description := none, status := some .completed,
    priority := none, categoryId := none, dueDate := none, tags := none }

/-- A creation dto for the sample task. -/
def sampleCreateDto : CreateTaskDto :=
  { title := "Ship release", description := none, status := none,
    priority := .high, categoryId := "cat-1", dueDate := none, tags := none }

/-- A concrete append call, for witnesses. -/
def sampleCall : AppendCall :=
  { taskId := "task-1", action := .created, oldValues := none,
    newValues := some sampleTask, now := 2 }

theorem updateFirst_cons {α : Type} (p : α → Bool) (f : α → α) (x : α) (xs : List α) :
    updateFirst p f (x :: xs) =
      if p x then some (x, f x, f x :: xs)
      else (updateFirst p f xs).map (fun r => (r.1, r.2.1, x :: r.2.2)) := rfl

theorem removeFirst_cons {α : Type} (p : α → Bool) (x : α) (xs : List α) :
    removeFirst p (x :: xs) =
      if p x then some (x, xs)
      else (removeFirst p xs).map (fun r => (r.1, x :: r.2)) := rfl

theorem updateFirst_none {α : Type} (p : α → Bool) (f : α → α) :
    ∀ l : List α, (∀ x ∈ l, p x = false) → updateFirst p f l = none := by
  intro l
  induction l with
  | nil => intro _; rfl
  | cons x xs ih =>
    intro h
    have hx : p x = false := h x (List.mem_cons_self x xs)
    have hxs : updateFirst p f xs = none := ih (fun y hy => h y (List.mem_cons_of_mem x hy))
    simp [updateFirst_cons, hx, hxs]

theorem removeFirst_none {α : Type} (p : α → Bool) :
    ∀ l : List α, (∀ x ∈ l, p x = false) → removeFirst p l = none := by
  intro l
  induction l with
  | nil => intro _; rfl
  | cons x xs ih =>
    intro h
    have hx : p x = false := h x (List.mem_cons_self x xs)
    have hxs : removeFirst p xs = none := ih (fun y hy => h y (List.mem_cons_of_mem x hy))
    simp [removeFirst_cons, hx, hxs]

theorem updateFirst_some {α : Type} (p : α → Bool) (f : α → α) :
    ∀ (l : List α) (o n : α) (l' : List α),
      updateFirst p f l = some (o, n, l') → n = f o ∧ o ∈ l := by
  intro l
  induction l with
  | nil => intro o n l' h; cases h
  | cons x xs ih =>
    intro o n l' h
    cases hx : p x with
    | true =>
      simp [updateFirst_cons, hx] at h
      obtain ⟨h1, h2, _⟩ := h
      subst h1
      subst h2
      exact ⟨rfl, List.mem_cons_self x xs⟩
    | false =>
      simp [updateFirst_cons, hx, Option.map_eq_some'] at h
      obtain ⟨o', n', l'', hr, h1, h2, _⟩ := h
      subst h1
      subst h2
      have := ih o' n' l'' hr
      exact ⟨this.1, List.mem_cons_of_mem x this.2⟩

theorem updateFirst_map {α β : Type} (p : α → Bool) (f : α → α) (g : α → β)
    (hg : ∀ x, g (f x) = g x) :
    ∀ (l : List α) (o n : α) (l' : List α),
      updateFirst p f l = some (o, n, l') → l'.map g = l.map g := by
  intro l
  induction l with
  | nil => intro o n l' h; cases h
  | cons x xs ih =>
    intro o n l' h
    cases hx : p x with
    | true =>
      simp [updateFirst_cons, hx] at h
      obtain ⟨_, _, h3⟩ := h
      subst h3
      simp [hg x]
    | false =>
      simp [updateFirst_cons, hx, Option.map_eq_some'] at h
      obtain ⟨o', n', l'', hr, _, _, h3⟩ := h
      subst h3
      simp [ih o' n' l'' hr]

theorem updateFirst_mem {α : Type} (p : α → Bool) (f : α → α) :
    ∀ (l : List α) (o n : α) (l' : List α),
      updateFirst p f l = some (o, n, l') → ∀ y ∈ l', y ∈ l ∨ y = f o := by
  intro l
  induction l with
  | nil => intro o n l' h; cases h
  | cons x xs ih =>
    intro o n l' h
    cases hx : p x with
    | true =>
      simp [updateFirst_cons, hx] at h
      obtain ⟨h1, _, h3⟩ := h
      subst h1
      subst h3
      intro y hy
      rcases List.mem_cons.mp hy with hyf | hyxs
      · exact Or.inr hyf
      · exact Or.inl (List.mem_cons_of_mem _ hyxs)
    | false =>
      simp [updateFirst_cons, hx, Option.map_eq_some'] at h
      obtain ⟨o', n', l'', hr, h1, _, h3⟩ := h
      subst h1
      subst h3
      intro y hy
      rcases List.mem_cons.mp hy with hyx | hyl
      · exact Or.inl (hyx ▸ List.mem_cons_self x xs)
      · rcases ih o' n' l'' hr y hyl with hin | hf
        · exact Or.inl (List.mem_cons_of_mem x hin)
        · exact Or.inr hf

theorem removeFirst_mem {α : Type} (p : α → Bool) :
    ∀ (l : List α) (a : α) (l' : List α),
      removeFirst p l = some (a, l') → ∀ y ∈ l', y ∈ l := by
  intro l
  induction l with
  | nil => intro a l' h; cases h
  | cons x xs ih =>
    intro a l' h
    cases hx : p x with
    | true =>
      simp [removeFirst_cons, hx] at h
      obtain ⟨_, h2⟩ := h
      subst h2
      intro y hy
      exact List.mem_cons_of_mem x hy
    | false =>
      simp [removeFirst_cons, hx, Option.map_eq_some'] at h
      obtain ⟨a', l'', hr, _, h2⟩ := h
      subst h2
      intro y hy
      rcases List.mem_cons.mp hy with hyx | hyl
      · exact hyx ▸ List.mem_cons_self x xs
      · exact List.mem_cons_of_mem x (ih a' l'' hr y hyl)

theorem removeFirst_eq {α : Type} (p : α → Bool) :
    ∀ l : List α, removeFirst p l = (l.find? p).map (fun a => (a, l.eraseP p)) := by
  intro l
  induction l with
  | nil => rfl
  | cons x xs ih =>
    cases hx : p x with
    | true =>
      simp [removeFirst_cons, hx, List.find?_cons, List.eraseP_cons]
    | false =>
      rw [removeFirst_cons]
      simp only [hx, List.find?_cons, List.eraseP_cons, cond_false, ih, Bool.false_eq_true,
        if_false]
      cases hf : xs.find? p <;> simp

theorem take_append_take {α : Type} (X l : List α) (n : Nat) :
    (X ++ l.take n).take n = (X ++ l).take n := by
  rw [List.take_append_eq_append_take, List.take_append_eq_append_take, List.take_take,
    min_eq_left (Nat.sub_le n X.length)]

theorem take1000_head (e : TaskHistory) (t : List TaskHistory) :
    ((e :: t).take 1000).head? = some e := by
  rw [show (1000 : Nat) = 999 + 1 from rfl, List.take_succ_cons]
  rfl

theorem addHistoryEntry_false (σ : St) (tid : String) (a : HistoryAction)
    (o n : Option Task) (now : Nat) :
    (addHistoryEntry false σ tid a o n now).2 =
      { σ with historyCounter := (generateId "history" σ.historyCounter).2
               history := (mkHistoryEntry σ tid a o n now :: σ.history).take 1000 } := rfl

theorem runAppends_history (calls : List AppendCall) :
    ∀ σ : St, σ.history.length ≤ 1000 →
      (runAppends σ calls).history =
        ((appendedEntries σ calls).reverse ++ σ.history).take 1000 := by
  induction calls with
  | nil =>
    intro σ h
    simp [runAppends, appendedEntries, List.take_of_length_le h]
  | cons c cs ih =>
    intro σ h
    have hstep := addHistoryEntry_false σ c.taskId c.action c.oldValues c.newValues c.now
    rw [show runAppends σ (c :: cs) =
      runAppends (addHistoryEntry false σ c.taskId c.action c.oldValues c.newValues c.now).2 cs
      from rfl]
    rw [ih _ (by rw [hstep]; exact List.length_take_le _ _)]
    rw [show appendedEntries σ (c :: cs) =
      mkHistoryEntry σ c.taskId c.action c.oldValues c.newValues c.now ::
        appendedEntries (addHistoryEntry false σ c.taskId c.action c.oldValues c.newValues c.now).2 cs
      from rfl]
    rw [List.reverse_cons]
    conv_lhs => rw [hstep]
    rw [take_append_take]
    rw [List.append_assoc]
    rfl

/-- C1, counterexample: one and the same completeTask call on one and the
same store succeeds when the history write goes through and fails when the
history write throws, so the mutation's reported outcome is not
independent of whether the history entry was recorded. -/
theorem completeTask_outcome_depends_on_history :
    isOkE (completeTask false sampleSt "task-1" 5).1 = true ∧
    isOkE (completeTask true sampleSt "task-1" 5).1 = false ∧
    (completeTask true sampleSt "task-1" 5).1 = .error "QuotaExceededError" := by
  decide

/-- C1, amended: a failure of the history append is propagated to the
caller of every Task Store mutation (the source has no catch on that
path), and the task-collection write itself happens before the append, so
for createTask the new task is persisted even though the call reports
failure. -/
theorem historyFailurePropagates (σ : St) (dto : CreateTaskDto) (id : String)
    (udto : UpdateTaskDto) (now : Nat) :
    isOkE (createTask true σ dto now).1 = false ∧
    isOkE (updateTask true σ id udto now).1 = false ∧
    isOkE (deleteTask true σ id now).1 = false ∧
    isOkE (completeTask true σ id now).1 = false ∧
    (createTask true σ dto now).2.tasks = σ.tasks ++ [mkNewTask σ dto now] := by
  refine ⟨rfl, ?_, ?_, ?_, rfl⟩
  · cases hu : updateFirst (fun t => t.id == id) (applyUpdate udto now) σ.tasks with
    | none => simp [updateTask, hu, isOkE]
    | some r =>
      obtain ⟨o, n, l⟩ := r
      simp [updateTask, hu, addHistoryEntry, isOkE]
  · cases hr : removeFirst (fun t => t.id == id) σ.tasks with
    | none => simp [deleteTask, hr, isOkE]
    | some r =>
      obtain ⟨a, l⟩ := r
      simp [deleteTask, hr, addHistoryEntry, isOkE]
  · cases hu : updateFirst (fun t => t.id == id) (applyComplete now) σ.tasks with
    | none => simp [completeTask, hu, isOkE]
    | some r =>
      obtain ⟨o, n, l⟩ := r
      simp [completeTask, hu, addHistoryEntry, isOkE]

/-- C2, counterexample: renaming a task that is already in progress leaves
the status unchanged at inProgress; the claim's classification chain,
whose started branch asks only that the new status be InProgress, yields
started, while the source records updated. -/
theorem updateInProgress_records_updated :
    (updateTask false inProgressSt "task-1" titleOnlyDto 7).2.history.head?.map
        (fun e => e.action) = some .updated ∧
    claimClassify inProgressTask (applyUpdate titleOnlyDto 7 inProgressTask) = .started ∧
    HistoryAction.updated ≠ HistoryAction.started := by
  decide

/-- C2, amended: the history entry updateTask appends carries both full
snapshots and, when the status changed, the action completed for a new
status of completed and started for a new status of inProgress; in every
other case, including an unchanged status of inProgress, the action is
updated. -/
theorem updateTask_classification (σ : St) (id : String) (dto : UpdateTaskDto)
    (now : Nat) (oldT newT : Task) (l : List Task)
    (h : updateFirst (fun t => t.id == id) (applyUpdate dto now) σ.tasks =
      some (oldT, newT, l)) :
    (updateTask false σ id dto now).2.history.head? =
      some { id := (generateId "history" σ.historyCounter).1
             taskId := id
             action :=
               if oldT.status ≠ newT.status then
                 if newT.status = .completed then .completed
                 else if newT.status = .inProgress then .started
                 else .updated
               else .updated
             timestamp := now
             oldValues := some oldT
             newValues := some newT } := by
  simp only [updateTask, h, addHistoryEntry, mkHistoryEntry, Bool.false_eq_true, if_false]
  rw [take1000_head]
  simp [classifyAction]

/-- C2, witness for the amended theorem: moving the sample task from
inProgress to completed records a completed entry. -/
theorem updateTask_classification_witness :
    (updateTask false inProgressSt "task-1" completeStatusDto 7).2.history.head?.map
      (fun e => e.action) = some .completed := by
  rw [updateTask_classification inProgressSt "task-1" completeStatusDto 7 inProgressTask
    (applyUpdate completeStatusDto 7 inProgressTask)
    [applyUpdate completeStatusDto 7 inProgressTask] (by decide)]
  decide

/-- C3, counterexample: with the corrupt stored counter value abc, the
next id allocation returns task-NaN and persists NaN, not the id built
from 1 and the value 2. -/
theorem corruptCounter_gives_nan :
    generateId "task" (some "abc") = ("task-NaN", some "NaN") ∧
    ("task-NaN" : String) ≠ "task-1" ∧
    (some "NaN" : Option String) ≠ some "2" := by
  decide

/-- C3, amended: a missing or empty stored counter is treated as 1 (the
allocated id is task-1 and 2 is persisted), while a non-numeric stored
counter makes parseInt return NaN, so the allocated id is task-NaN and
NaN is persisted; generateId is a total function, so no case throws. -/
theorem getCounter_lenient :
    generateId "task" none = ("task-1", some "2") ∧
    generateId "task" (some "") = ("task-1", some "2") ∧
    (∀ s : String, s ≠ "" → parseIntJs s = .nan →
      generateId "task" (some s) = ("task-NaN", some "NaN")) := by
  refine ⟨by decide, by decide, ?_⟩
  intro s hne hnan
  have hbeq : (s == "") = false := beq_eq_false_iff_ne.mpr hne
  have h1 : getCounter (some s) = .nan := by simp [getCounter, hbeq, hnan]
  simp [generateId, h1, jsNumToString, jsAdd1]

/-- C3, witness for the amended theorem at the corrupt value abc. -/
theorem getCounter_lenient_witness :
    ("abc" : String) ≠ "" ∧ parseIntJs "abc" = .nan ∧
    generateId "task" (some "abc") = ("task-NaN", some "NaN") :=
  ⟨by decide, by decide, getCounter_lenient.2.2 "abc" (by decide) (by decide)⟩

theorem updateTask_tasks (hf : Bool) (σ : St) (id : String) (dto : UpdateTaskDto)
    (now : Nat) (o n : Task) (l : List Task)
    (h : updateFirst (fun t => t.id == id) (applyUpdate dto now) σ.tasks = some (o, n, l)) :
    (updateTask hf σ id dto now).2.tasks = l := by
  cases hf <;> simp [updateTask, h, addHistoryEntry]

theorem completeTask_tasks (hf : Bool) (σ : St) (id : String) (now : Nat)
    (o n : Task) (l : List Task)
    (h : updateFirst (fun t => t.id == id) (applyComplete now) σ.tasks = some (o, n, l)) :
    (completeTask hf σ id now).2.tasks = l := by
  cases hf <;> simp [completeTask, h, addHistoryEntry]

theorem deleteTask_tasks (hf : Bool) (σ : St) (id : String) (now : Nat)
    (a : Task) (l : List Task)
    (h : removeFirst (fun t => t.id == id) σ.tasks = some (a, l)) :
    (deleteTask hf σ id now).2.tasks = l := by
  cases hf <;> simp [deleteTask, h, addHistoryEntry]

/-- C4, counterexample: completing a task that is already completed is not
a status transition to Completed, yet completeTask reassigns completedAt
from 3 to the new time 9. -/
theorem completeTask_reassigns_completedAt :
    completedTask.status = .completed ∧
    completedTask.completedAt = some 3 ∧
    (completeTask false completedSt "task-1" 9).2.tasks.map (fun t => t.completedAt) =
      [some 9] ∧
    (completeTask false completedSt "task-1" 9).2.tasks.map (fun t => t.status) =
      [.completed] ∧
    (some 9 : Option Nat) ≠ some 3 := by
  decide

/-- C4, amended: completedAt is assigned only by completeTask, which sets
it to the current time on every call, transition or not; createTask leaves
it absent, updateTask never changes any stored completedAt (even when the
update moves the status to completed) and deleteTask only removes tasks. -/
theorem completedAt_assignment (hf : Bool) (σ : St) (id : String)
    (dto : UpdateTaskDto) (cdto : CreateTaskDto) (now : Nat) :
    ((updateTask hf σ id dto now).2.tasks.map (fun t => t.completedAt) =
      σ.tasks.map (fun t => t.completedAt)) ∧
    ((createTask hf σ cdto now).2.tasks.map (fun t => t.completedAt) =
      σ.tasks.map (fun t => t.completedAt) ++ [none]) ∧
    (∀ t' ∈ (deleteTask hf σ id now).2.tasks, t' ∈ σ.tasks) ∧
    (∀ t' ∈ (completeTask hf σ id now).2.tasks,
      t' ∈ σ.tasks ∨ t'.completedAt = some now) := by
  refine ⟨?_, ?_, ?_, ?_⟩
  · cases hu : updateFirst (fun t => t.id == id) (applyUpdate dto now) σ.tasks with
    | none =>
      have hst : (updateTask hf σ id dto now).2 = σ := by
        cases hf <;> simp [updateTask, hu]
      rw [hst]
    | some r =>
      obtain ⟨o, n, l⟩ := r
      rw [updateTask_tasks hf σ id dto now o n l hu]
      exact updateFirst_map (fun t => t.id == id) (applyUpdate dto now)
        (fun t => t.completedAt) (fun x => rfl) σ.tasks o n l hu
  · cases hf <;> simp [createTask, addHistoryEntry, mkNewTask]
  · cases hr : removeFirst (fun t => t.id == id) σ.tasks with
    | none =>
      have hst : (deleteTask hf σ id now).2 = σ := by
        cases hf <;> simp [deleteTask, hr]
      rw [hst]
      intro y hy
      exact hy
    | some r =>
      obtain ⟨a, l⟩ := r
      rw [deleteTask_tasks hf σ id now a l hr]
      exact removeFirst_mem _ σ.tasks a l hr
  · cases hu : updateFirst (fun t => t.id == id) (applyComplete now) σ.tasks with
    | none =>
      have hst : (completeTask hf σ id now).2 = σ := by
        cases hf <;> simp [completeTask, hu]
      rw [hst]
      intro y hy
      exact Or.inl hy
    | some r =>
      obtain ⟨o, n, l⟩ := r
      rw [completeTask_tasks hf σ id now o n l hu]
      intro y hy
      rcases updateFirst_mem _ _ σ.tasks o n l hu y hy with hin | heq
      · exact Or.inl hin
      · exact Or.inr (by rw [heq]; rfl)

/-- C4, witness for the amended theorem: the one task completeTask touched
either was already stored or carries completedAt = now. -/
theorem completedAt_assignment_witness :
    applyComplete 9 sampleTask ∈ sampleSt.tasks ∨
      (applyComplete 9 sampleTask).completedAt = some 9 :=
  (completedAt_assignment false sampleSt "task-1" titleOnlyDto sampleCreateDto 9).2.2.2
    (applyComplete 9 sampleTask) (by decide)

/-- C5: starting from an empty history, any sequence of successful appends
leaves exactly the most recent 1000 of the appended entries, newest first;
an unfiltered getHistory therefore never returns more than 1000 entries,
and every single append puts its entry at the front. -/
theorem history_retention (σ : St) (calls : List AppendCall) (h : σ.history = []) :
    getHistory (runAppends σ calls) none = ((appendedEntries σ calls).reverse).take 1000 ∧
    (getHistory (runAppends σ calls) none).length ≤ 1000 ∧
    (∀ (σ0 : St) (c : AppendCall),
      ((addHistoryEntry false σ0 c.taskId c.action c.oldValues c.newValues c.now).2.history).head? =
        some (mkHistoryEntry σ0 c.taskId c.action c.oldValues c.newValues c.now)) := by
  have hlen : σ.history.length ≤ 1000 := by
    rw [h]
    exact Nat.zero_le 1000
  have hmain := runAppends_history calls σ hlen
  have hq : getHistory (runAppends σ calls) none = (runAppends σ calls).history := rfl
  refine ⟨?_, ?_, ?_⟩
  · rw [hq, hmain, h, List.append_nil]
  · rw [hq, hmain]
    exact List.length_take_le _ _
  · intro σ0 c
    rw [addHistoryEntry_false]
    exact take1000_head _ _

/-- C5, witness: one concrete append from the sample store. -/
theorem history_retention_witness :
    getHistory (runAppends sampleSt [sampleCall]) none =
      ((appendedEntries sampleSt [sampleCall]).reverse).take 1000 :=
  (history_retention sampleSt [sampleCall] rfl).1

/-- C6: createCategory fails with the conflict error and changes nothing,
counter included, when some existing name matches case-insensitively;
otherwise it returns the record built from the freshly allocated id,
taskCount 0 and createdAt now, appends it and advances the counter. -/
theorem createCategory_conflict (σ : St) (dto : CreateCategoryDto) (now : Nat) :
    if σ.categories.any (fun c => jsToLower c.name == jsToLower dto.name) then
      createCategory σ dto now =
        (.error ("Ya existe una categoría con el nombre \"" ++ dto.name ++ "\""), σ)
    else
      createCategory σ dto now =
        (.ok (mkNewCategory σ dto now),
         { σ with
            categories := σ.categories ++ [mkNewCategory σ dto now]
            categoriesCounter := (generateId "cat" σ.categoriesCounter).2 }) ∧
      (mkNewCategory σ dto now).taskCount = 0 ∧
      (mkNewCategory σ dto now).createdAt = now ∧
      (mkNewCategory σ dto now).id = (generateId "cat" σ.categoriesCounter).1 := by
  cases hdup : σ.categories.any (fun c => jsToLower c.name == jsToLower dto.name) with
  | true => simp [hdup, createCategory]
  | false => simp [hdup, createCategory, mkNewCategory]

/-- C7: deleteCategory fails with NotFound when the id is absent, fails
with the Conflict error and leaves everything unchanged while some task
still references the id, and otherwise removes exactly the first category
carrying the id; the Conflict condition is exactly that the Task Store's
category filter is non-empty. -/
theorem deleteCategory_cases (σ : St) (id : String) :
    (if σ.categories.any (fun c => c.id == id) then
      if σ.tasks.any (fun t => t.categoryId == id) then
        deleteCategory σ id =
          (.error "No se puede eliminar una categoría que tiene tareas asociadas", σ)
      else
        deleteCategory σ id =
          (.ok (), { σ with categories := σ.categories.eraseP (fun c => c.id == id) })
    else
      deleteCategory σ id = (.error ("Categoría " ++ id ++ " no encontrada"), σ)) ∧
    (σ.tasks.any (fun t => t.categoryId == id) = true ↔ getTasksByCategory σ id ≠ []) := by
  constructor
  · cases hany : σ.categories.any (fun c => c.id == id) with
    | false =>
      have hnone : removeFirst (fun c => c.id == id) σ.categories = none := by
        apply removeFirst_none
        intro x hx
        have hx' := (List.any_eq_false.mp hany) x hx
        cases hpx : (x.id == id) with
        | false => rfl
        | true => exact absurd hpx hx'
      simp [hany, deleteCategory, hnone]
    | true =>
      have hsome : (σ.categories.find? (fun c => c.id == id)).isSome := by
        rw [List.find?_isSome]
        obtain ⟨x, hxm, hpx⟩ := List.any_eq_true.mp hany
        exact ⟨x, hxm, hpx⟩
      obtain ⟨a, ha⟩ := Option.isSome_iff_exists.mp hsome
      have hrf : removeFirst (fun c => c.id == id) σ.categories =
          some (a, σ.categories.eraseP (fun c => c.id == id)) := by
        rw [removeFirst_eq, ha]
        rfl
      cases htask : σ.tasks.any (fun t => t.categoryId == id) with
      | true => simp [hany, htask, deleteCategory, hrf]
      | false => simp [hany, htask, deleteCategory, hrf]
  · simp only [getTasksByCategory]
    constructor
    · intro hany hnil
      obtain ⟨x, hxm, hpx⟩ := List.any_eq_true.mp hany
      have hmem : x ∈ σ.tasks.filter (fun t => t.categoryId == id) :=
        List.mem_filter.mpr ⟨hxm, hpx⟩
      rw [hnil] at hmem
      cases hmem
    · intro hne
      by_contra hany
      apply hne
      apply List.filter_eq_nil_iff.mpr
      intro a hm hpa
      exact hany (List.any_eq_true.mpr ⟨a, hm, hpa⟩)

/-- C8: updateTask applies exactly the supplied dto fields, keeps id,
createdAt, completedAt and every field the dto leaves unset, and stamps
updatedAt with the fresh current time, which strictly increases updatedAt
whenever the clock has advanced past the stored value; createTask stamps
createdAt and updatedAt with one and the same time. -/
theorem updateTask_frame (σ : St) (id : String) (dto : UpdateTaskDto) (now : Nat)
    (oldT newT : Task) (l : List Task)
    (h : updateFirst (fun t => t.id == id) (applyUpdate dto now) σ.tasks =
      some (oldT, newT, l))
    (hfresh : oldT.updatedAt < now) :
    (updateTask false σ id dto now).1 = .ok newT ∧
    newT = applyUpdate dto now oldT ∧
    newT.id = oldT.id ∧
    newT.createdAt = oldT.createdAt ∧
    newT.completedAt = oldT.completedAt ∧
    newT.title = dto.title.getD oldT.title ∧
    newT.description = dto.description.or oldT.description ∧
    newT.status = dto.status.getD oldT.status ∧
    newT.priority = dto.priority.getD oldT.priority ∧
    newT.categoryId = dto.categoryId.getD oldT.categoryId ∧
    newT.dueDate = dto.dueDate.or oldT.dueDate ∧
    newT.tags = dto.tags.or oldT.tags ∧
    newT.updatedAt = now ∧
    oldT.updatedAt < newT.updatedAt ∧
    (∀ (cdto : CreateTaskDto) (cnow : Nat),
      (createTask false σ cdto cnow).1 = .ok (mkNewTask σ cdto cnow) ∧
      (mkNewTask σ cdto cnow).createdAt = cnow ∧
      (mkNewTask σ cdto cnow).updatedAt = cnow) := by
  have hn : newT = applyUpdate dto now oldT := (updateFirst_some _ _ σ.tasks oldT newT l h).1
  subst hn
  refine ⟨?_, rfl, rfl, rfl, rfl, rfl, rfl, rfl, rfl, rfl, rfl, rfl, rfl, hfresh, ?_⟩
  · simp [updateTask, h, addHistoryEntry]
  · intro cdto cnow
    exact ⟨rfl, rfl, rfl⟩

/-- C8, witness: renaming the sample task at time 5. -/
theorem updateTask_frame_witness :
    (updateTask false sampleSt "task-1" titleOnlyDto 5).1 =
      .ok (applyUpdate titleOnlyDto 5 sampleTask) :=
  (updateTask_frame sampleSt "task-1" titleOnlyDto 5 sampleTask
    (applyUpdate titleOnlyDto 5 sampleTask) [applyUpdate titleOnlyDto 5 sampleTask]
    (by decide) (by decide)).1

/-- C9: on an empty collection the bootstrap installs exactly the three
default categories, with pairwise distinct ids, names, colors and icons,
and sets the counter to 4; on a non-empty collection it changes nothing,
and running it a second time is always a no-op. -/
theorem initDefault_seeding (σ : St) (now now2 : Nat) :
    (if σ.categories.isEmpty then
      initDefaultCategories σ now =
        { σ with categories := defaultCategories now, categoriesCounter := some "4" }
    else initDefaultCategories σ now = σ) ∧
    (defaultCategories now).length = 3 ∧
    ((defaultCategories now).map (fun c => c.id)).Nodup ∧
    ((defaultCategories now).map (fun c => c.name)).Nodup ∧
    ((defaultCategories now).map (fun c => c.color)).Nodup ∧
    ((defaultCategories now).map (fun c => c.icon)).Nodup ∧
    initDefaultCategories (initDefaultCategories σ now) now2 =
      initDefaultCategories σ now := by
  refine ⟨?_, rfl, ?_, ?_, ?_, ?_, ?_⟩
  · cases he : σ.categories.isEmpty <;> simp [initDefaultCategories, he]
  · exact (by decide : (["cat-1", "cat-2", "cat-3"] : List String).Nodup)
  · exact (by decide : (["Personal", "Trabajo", "Urgente"] : List String).Nodup)
  · exact (by decide : (["#4caf50", "#2196f3", "#f44336"] : List String).Nodup)
  · exact (by decide : ([some "👤", some "💼", some "⚡"] : List (Option String)).Nodup)
  · cases he : σ.categories.isEmpty <;>
      simp [initDefaultCategories, he, defaultCategories]

/-- C10: on an id absent from the task collection, updateTask, deleteTask
and completeTask return the NotFound error carrying the id together with
the state exactly as it was: same tasks, same counters, same history and
categories, and in particular no history entry. -/
theorem notFound_atomic (hf : Bool) (σ : St) (id : String) (dto : UpdateTaskDto)
    (now : Nat) (h : ∀ t ∈ σ.tasks, (t.id == id) = false) :
    updateTask hf σ id dto now = (.error ("Tarea " ++ id ++ " no encontrada"), σ) ∧
    deleteTask hf σ id now = (.error ("Tarea " ++ id ++ " no encontrada"), σ) ∧
    completeTask hf σ id now = (.error ("Tarea " ++ id ++ " no encontrada"), σ) := by
  have h1 := updateFirst_none (fun t => t.id == id) (applyUpdate dto now) σ.tasks h
  have h2 := removeFirst_none (fun t => t.id == id) σ.tasks h
  have h3 := updateFirst_none (fun t => t.id == id) (applyComplete now) σ.tasks h
  exact ⟨by simp [updateTask, h1], by simp [deleteTask, h2], by simp [completeTask, h3]⟩

/-- C10, witness: the unknown id task-9 against the sample store. -/
theorem notFound_atomic_witness :
    updateTask false sampleSt "task-9" titleOnlyDto 4 =
      (.error ("Tarea " ++ "task-9" ++ " no encontrada"), sampleSt) :=
  (notFound_atomic false sampleSt "task-9" titleOnlyDto 4 (by decide)).1

end TodoApp
